import Mathlib

/-!
Verification development for the D-Shield egress-attestation core.

The definitions below are a shallow embedding of the TypeScript sources:

* `src/proxy/signer.ts` (`TEESigner.sign`, `verifySignature`),
* `src/proxy/log-store.ts` (`InMemoryLogStore`, `verifyLogIntegrity`),
* `src/proxy/proxy-server.ts` (`LoggingProxyServer.handleRequest`,
  `LoggingProxyServer.logRequest`),
* `src/client-transparency/manifest.ts` (`computeBundleHash`,
  `generateManifest`, `serializeManifest`),
* `src/client-transparency/signer.ts` (`signManifest`,
  `verifyManifestSignature`, `verifyBundleHash`),
* `src/client-transparency/registry.ts` (`ManifestRegistry`).

External library behaviour (node-forge RSA primitives, node:crypto SHA-256,
base64 and PEM codecs) is modelled by explicit parameters so that every
theorem quantifies over the library implementation; the repository's own
logic is embedded concretely.

JavaScript's `JSON.stringify` (with its optional replacer array and indent
gap) is embedded as an executable function on a JSON value type, following
ECMA-262's SerializeJSONProperty / SerializeJSONObject / SerializeJSONArray.
-/

mutual

/-- JSON value, mirroring the JavaScript values that JSON.stringify handles
in this repository (null, booleans, numbers, strings, arrays, objects). -/
inductive JValue where
  | jnull : JValue
  | jbool : Bool → JValue
  | jnum : Nat → JValue
  | jstr : String → JValue
  | jarr : JList → JValue
  | jobj : JMembers → JValue

/-- List of JSON array elements. -/
inductive JList where
  | nil : JList
  | cons : JValue → JList → JList

/-- Insertion-ordered members of a JSON object (JavaScript objects preserve
string-key insertion order). -/
inductive JMembers where
  | nil : JMembers
  | cons : String → JValue → JMembers → JMembers

end

def JList.ofList : List JValue → JList
  | [] => .nil
  | v :: t => .cons v (JList.ofList t)

def JMembers.ofList : List (String × JValue) → JMembers
  | [] => .nil
  | (k, v) :: t => .cons k v (JMembers.ofList t)

/-- Keys of a JSON object in insertion order (Object.keys). -/
def JMembers.keys : JMembers → List String
  | .nil => []
  | .cons k _ t => k :: JMembers.keys t

/-- Escape one character for a JSON string literal (QuoteJSONString; the
strings appearing in this development need only these escapes). -/
def escapeChar (c : Char) : String :=
  if c = '"' then "\\\""
  else if c = '\\' then "\\\\"
  else if c = '\n' then "\\n"
  else if c = '\t' then "\\t"
  else if c = '\r' then "\\r"
  else String.singleton c

/-- JSON string quoting. -/
def quoteJson (s : String) : String :=
  "\"" ++ String.join (s.data.map escapeChar) ++ "\""

/-- Assemble a serialized JSON object from its already-serialized members,
following SerializeJSONObject's formatting for an empty gap (compact) and a
non-empty gap (one member per line, indented). -/
def fmtObj (gap ind : String) (items : List String) : String :=
  if items.isEmpty then "\x7b\x7d"
  else if gap.isEmpty then "\x7b" ++ String.intercalate "," items ++ "\x7d"
  else "\x7b\n" ++ ind ++ gap ++ String.intercalate (",\n" ++ ind ++ gap) items
       ++ "\n" ++ ind ++ "\x7d"

/-- Assemble a serialized JSON array from its serialized elements
(SerializeJSONArray's formatting). -/
def fmtArr (gap ind : String) (items : List String) : String :=
  if items.isEmpty then "[]"
  else if gap.isEmpty then "[" ++ String.intercalate "," items ++ "]"
  else "[\n" ++ ind ++ gap ++ String.intercalate (",\n" ++ ind ++ gap) items
       ++ "\n" ++ ind ++ "]"

/-- Look up the serialized value for a key among serialized members (first
occurrence, as JavaScript property lookup). -/
def lookupSer (k : String) : List (String × String) → Option String
  | [] => none
  | (k₂, s) :: t => if k = k₂ then some s else lookupSer k t

mutual

/-- JSON.stringify of a value. `props` is the PropertyList induced by a
replacer array (`none` when no replacer is given): when present it selects
and orders the keys of EVERY object in the tree, per ECMA-262
SerializeJSONObject step 5a. `gap` is the indent unit derived from the
`space` argument, `ind` the current indentation. -/
def serVal (props : Option (List String)) (gap ind : String) : JValue → String
  | .jnull => "null"
  | .jbool true => "true"
  | .jbool false => "false"
  | .jnum n => toString n
  | .jstr s => quoteJson s
  | .jarr es => fmtArr gap ind (serElems props gap (ind ++ gap) es)
  | .jobj ms =>
      let sers := serMembers props gap (ind ++ gap) ms
      let ks := match props with
        | some ps => ps
        | none => ms.keys
      let items := ks.filterMap (fun k =>
        (lookupSer k sers).map (fun sv =>
          quoteJson k ++ ":" ++ (if gap.isEmpty then "" else " ") ++ sv))
      fmtObj gap ind items
termination_by structural v => v

/-- Serialize every element of a JSON array. -/
def serElems (props : Option (List String)) (gap ind : String) : JList → List String
  | .nil => []
  | .cons v t => serVal props gap ind v :: serElems props gap ind t
termination_by structural l => l

/-- Serialize every member value of a JSON object, keeping the keys. -/
def serMembers (props : Option (List String)) (gap ind : String) :
    JMembers → List (String × String)
  | .nil => []
  | .cons k v t => (k, serVal props gap ind v) :: serMembers props gap ind t
termination_by structural m => m

end

/-- JSON.stringify(v) with no replacer and no space: the compact form used
for log-entry signing. -/
def stringifyCompact (v : JValue) : String := serVal none "" "" v

/-- Deduplicate a list of keys keeping first occurrences (CreateDataProperty
behaviour when building a PropertyList from a replacer array). -/
def keepFirstAux : List String → List String → List String
  | _, [] => []
  | seen, k :: t =>
      if k ∈ seen then keepFirstAux seen t else k :: keepFirstAux (k :: seen) t

/-!
JavaScript string comparison (Array.prototype.sort's default comparison and
localeCompare as used on ASCII path and key strings) is modelled by the
executable lexicographic order on the code points.
-/

def charListLe : List Char → List Char → Bool
  | [], _ => true
  | _ :: _, [] => false
  | a :: as, b :: bs =>
      if a.toNat < b.toNat then true
      else if b.toNat < a.toNat then false
      else charListLe as bs

/-- Lexicographic order on strings. -/
def strLe (a b : String) : Prop := charListLe a.data b.data = true

instance : DecidableRel strLe :=
  fun a b => instDecidableEqBool (charListLe a.data b.data) true

theorem charListLe_total : ∀ (a b : List Char),
    charListLe a b = true ∨ charListLe b a = true := by
  intro a
  induction a with
  | nil => intro b; left; rfl
  | cons x xs ih =>
      intro b
      cases b with
      | nil => right; rfl
      | cons y ys =>
          simp only [charListLe]
          rcases Nat.lt_trichotomy x.toNat y.toNat with h | h | h
          · left
            simp [h]
          · rcases ih ys with h2 | h2
            · left
              simp [h, h2]
            · right
              simp [h, h2]
          · right
            simp [h, Nat.lt_asymm h]

theorem charListLe_trans : ∀ (a b c : List Char), charListLe a b = true →
    charListLe b c = true → charListLe a c = true := by
  intro a
  induction a with
  | nil => intro b c _ _; rfl
  | cons x xs ih =>
      intro b c hab hbc
      cases b with
      | nil => simp [charListLe] at hab
      | cons y ys =>
          cases c with
          | nil => simp [charListLe] at hbc
          | cons z zs =>
              simp only [charListLe] at hab hbc ⊢
              split_ifs at hab hbc ⊢ <;>
                first
                  | rfl
                  | omega
                  | exact ih ys zs hab hbc

theorem char_toNat_inj (a b : Char) (h : a.toNat = b.toNat) : a = b :=
  Char.eq_of_val_eq (UInt32.toNat.inj h)

theorem charListLe_antisymm : ∀ (a b : List Char), charListLe a b = true →
    charListLe b a = true → a = b := by
  intro a
  induction a with
  | nil =>
      intro b _ hba
      cases b with
      | nil => rfl
      | cons y ys => simp [charListLe] at hba
  | cons x xs ih =>
      intro b hab hba
      cases b with
      | nil => simp [charListLe] at hab
      | cons y ys =>
          simp only [charListLe] at hab hba
          by_cases h1 : x.toNat < y.toNat
          · simp [h1, Nat.lt_asymm h1] at hba
          · by_cases h2 : y.toNat < x.toNat
            · simp [h1, h2] at hab
            · have hx : x = y := char_toNat_inj x y (by omega)
              subst hx
              simp only [if_neg h1, if_neg h2] at hab hba
              rw [ih ys hab hba]

theorem strLe_total : ∀ a b : String, strLe a b ∨ strLe b a :=
  fun a b => charListLe_total a.data b.data

theorem strLe_trans : ∀ a b c : String, strLe a b → strLe b c → strLe a c :=
  fun a b c => charListLe_trans a.data b.data c.data

theorem strLe_antisymm (a b : String) (hab : strLe a b) (hba : strLe b a) :
    a = b := by
  have h := charListLe_antisymm a.data b.data hab hba
  cases a
  cases b
  exact congrArg String.mk h

instance : IsTotal String strLe := ⟨strLe_total⟩

instance : IsTrans String strLe := ⟨fun a b c => strLe_trans a b c⟩

/-!
RSA signer model, from `src/proxy/signer.ts`.

node-forge's RSA operations are modelled algebraically over `Nat`: the
EMSA-PKCS1-v1_5 encoding of the SHA-256 digest of a message is an arbitrary
parameter `padHash : String → Nat`, signing is modular exponentiation with
the private exponent, verification re-exponentiates with the public exponent
and compares (forge's `publicKey.verify` checks the decrypted block against
the expected digest encoding). PEM parsing and base64 coding are parameters
`parsePem`, `enc64`, `dec64`; any failure of a library call, which the
source catches with try/catch, is an `Option` failure here.
-/

/-- RSA public key as used by forge: modulus and public exponent. -/
structure RSAPublicKey where
  n : Nat
  e : Nat
deriving DecidableEq

/-- RSA private key: modulus and private exponent. -/
structure RSAPrivateKey where
  n : Nat
  d : Nat
deriving DecidableEq

/-- RSASSA signing primitive: modular exponentiation of the padded digest
(models `this.privateKey.sign(md)` in TEESigner.sign). -/
def rsaSignRaw (padHash : String → Nat) (sk : RSAPrivateKey) (data : String) : Nat :=
  padHash data ^ sk.d % sk.n

/-- TEESigner.sign (src/proxy/signer.ts lines 31-36): SHA-256 with RSA,
base64-encoded. -/
def TEESigner.sign (padHash : String → Nat) (enc64 : Nat → String)
    (sk : RSAPrivateKey) (data : String) : String :=
  enc64 (rsaSignRaw padHash sk data)

/-- verifySignature (src/proxy/signer.ts lines 59-73): parse the PEM public
key, decode the base64 signature, and check the RSA verification equation;
any failure along the way yields false (the try/catch in the source returns
false on any thrown error, including parse errors and length mismatches). -/
def verifySignature (parsePem : String → Option RSAPublicKey)
    (dec64 : String → Option Nat) (padHash : String → Nat)
    (data signature publicKeyPem : String) : Bool :=
  match parsePem publicKeyPem with
  | none => false
  | some pk =>
      match dec64 signature with
      | none => false
      | some s => decide (s ^ pk.e % pk.n = padHash data % pk.n)

/-!
Log entries and the in-memory log store, from `src/proxy/types.ts` and
`src/proxy/log-store.ts`.
-/

/-- Egress log entry (src/proxy/types.ts): the `type` field holds the
literal tag 'egress' that LoggingProxyServer.logRequest writes. -/
structure EgressLogEntry where
  type : String
  sequence : Nat
  functionId : String
  invocationId : String
  timestamp : String
  method : String
  host : String
  port : Nat
  path : String
  protocol : String
deriving DecidableEq

/-- Signed log entry: the egress entry plus its base64 signature. -/
structure SignedLogEntry extends EgressLogEntry where
  signature : String
deriving DecidableEq

/-- JSON members of an egress entry, in the insertion order of the object
literal in LoggingProxyServer.logRequest (proxy-server.ts lines 158-169). -/
def egressPairs (e : EgressLogEntry) : List (String × JValue) :=
  [("type", .jstr e.type), ("sequence", .jnum e.sequence),
   ("functionId", .jstr e.functionId), ("invocationId", .jstr e.invocationId),
   ("timestamp", .jstr e.timestamp), ("method", .jstr e.method),
   ("host", .jstr e.host), ("port", .jnum e.port),
   ("path", .jstr e.path), ("protocol", .jstr e.protocol)]

/-- JSON.stringify(entry): the canonical bytes the proxy signs
(`const dataToSign = JSON.stringify(entry)` in logRequest). -/
def canonEgress (e : EgressLogEntry) : String :=
  stringifyCompact (.jobj (.ofList (egressPairs e)))

/-- JSON members of a signed entry: the spread in logRequest keeps the
egress keys first and appends `signature` last. -/
def signedPairs (s : SignedLogEntry) : List (String × JValue) :=
  egressPairs s.toEgressLogEntry ++ [("signature", .jstr s.signature)]

/-- Rest-destructuring `const (signature, ...entryWithoutSig) = entry` in
verifyLogIntegrity: the remaining members keep their original order. -/
def removeKey (k : String) (l : List (String × JValue)) : List (String × JValue) :=
  l.filter (fun p => p.1 ≠ k)

/-- Stripping `signature` from a signed entry leaves exactly the egress
members, so the verifier re-serializes the same bytes the proxy signed. -/
theorem removeKey_signature (s : SignedLogEntry) :
    removeKey "signature" (signedPairs s) = egressPairs s.toEgressLogEntry := by
  simp [removeKey, signedPairs, egressPairs]

/-- InMemoryLogStore state (src/proxy/log-store.ts lines 7-33): a map from
functionId to its entries and a map from functionId to its cached latest
sequence, both modelled as functions into Option/List. -/
structure InMemoryLogStore where
  entries : String → List SignedLogEntry
  sequences : String → Option Nat

def InMemoryLogStore.empty : InMemoryLogStore :=
  ⟨fun _ => [], fun _ => none⟩

/-- append (log-store.ts lines 11-16): push the entry onto the function's
list and record its sequence as the latest. -/
def InMemoryLogStore.append (st : InMemoryLogStore) (entry : SignedLogEntry) :
    InMemoryLogStore where
  entries := fun f =>
    if f = entry.functionId then st.entries f ++ [entry] else st.entries f
  sequences := fun f =>
    if f = entry.functionId then some entry.sequence else st.sequences f

/-- getAll (log-store.ts lines 18-20). -/
def InMemoryLogStore.getAll (st : InMemoryLogStore) (functionId : String) :
    List SignedLogEntry :=
  st.entries functionId

/-- getLatestSequence (log-store.ts lines 22-24): the cached value, 0 when
the map has no binding (`|| 0`). -/
def InMemoryLogStore.getLatestSequence (st : InMemoryLogStore)
    (functionId : String) : Nat :=
  (st.sequences functionId).getD 0

/-!
Logging proxy, from `src/proxy/proxy-server.ts`.

`logRequest` chains its work onto `this.sequenceLock`
(`this.sequenceLock = this.sequenceLock.then(async () => ...)`), and the
synchronous prefix of `logRequest` runs atomically on the event loop, so
concurrent calls execute their critical sections strictly one after the
other, in their chaining order. A batch of N concurrent requests is
therefore embedded as a fold of the critical-section body over the requests
in an arbitrary list order.
-/

/-- The per-request data the forward path extracts from the client request
(method, parsed URL pieces, fixed protocol). -/
structure ProxyRequestInfo where
  method : String
  host : String
  port : Nat
  path : String
  protocol : String
deriving DecidableEq

/-- Body of the sequenceLock critical section in logRequest (proxy-server.ts
lines 154-185): read the latest sequence, build the entry (with a timestamp
taken inside the critical section), sign its JSON, append. `signer` models
`config.signer.sign`. Returns the new store and the appended entry. -/
def logRequestStep (signer : String → String) (functionId invocationId : String)
    (st : InMemoryLogStore) (r : ProxyRequestInfo) (ts : String) :
    InMemoryLogStore × SignedLogEntry :=
  let sequence := st.getLatestSequence functionId + 1
  let entry : EgressLogEntry :=
    ⟨"egress", sequence, functionId, invocationId, ts,
     r.method, r.host, r.port, r.path, r.protocol⟩
  let signature := signer (canonEgress entry)
  let signed : SignedLogEntry := ⟨entry, signature⟩
  (st.append signed, signed)

/-- A batch of concurrent logRequest calls, executed in the (arbitrary)
order in which they joined the sequenceLock chain; each element pairs the
request with the timestamp read inside its critical section. -/
def processBatch (signer : String → String) (functionId invocationId : String)
    (st : InMemoryLogStore) (rs : List (ProxyRequestInfo × String)) :
    InMemoryLogStore :=
  rs.foldl (fun s rt => (logRequestStep signer functionId invocationId s rt.1 rt.2).1) st

/-- Observable steps of the proxy's HTTP forward path. -/
inductive ProxyEvent where
  | appended : SignedLogEntry → ProxyEvent
  | connectUpstream : String → Nat → ProxyEvent
  | responded : Nat → ProxyEvent
deriving DecidableEq

/-- Outcome of one handled request: final store, status sent to the
sandboxed client, and the ordered trace of observable steps. -/
structure HandleResult where
  store : InMemoryLogStore
  status : Nat
  events : List ProxyEvent

/-- LoggingProxyServer.handleRequest forward path (proxy-server.ts lines
49-92): `await this.logRequest(...)` first; then `http.request` opens the
upstream connection; an upstream error answers 502 Bad Gateway; a rejection
of the log append is caught by the surrounding try/catch, which answers 500
Internal Server Error without ever reaching the forwarding code.

`appendOk` models whether the log store append succeeds (the in-memory
store always succeeds; the durable backend may reject, §4.B). `upstream` is
`some s` when the upstream connection succeeds and answers status `s`, and
`none` when the upstream is unreachable. -/
def handleRequest (signer : String → String) (functionId invocationId : String)
    (appendOk : Bool) (upstream : Option Nat) (st : InMemoryLogStore)
    (r : ProxyRequestInfo) (ts : String) : HandleResult :=
  if appendOk then
    let step := logRequestStep signer functionId invocationId st r ts
    match upstream with
    | some s =>
        ⟨step.1, s,
         [.appended step.2, .connectUpstream r.host r.port, .responded s]⟩
    | none =>
        ⟨step.1, 502,
         [.appended step.2, .connectUpstream r.host r.port, .responded 502]⟩
  else
    ⟨st, 500, [.responded 500]⟩

/-- verifyLogIntegrity (src/proxy/log-store.ts lines 38-83): sort by
sequence, check the start-at-1 invariant, then for each entry check
contiguity and the signature over the entry with its `signature` member
stripped; all errors accumulate and validity is their absence. The stable
JavaScript sort with comparator `a.sequence - b.sequence` is modelled by
insertion sort on `sequence`. -/
def verifyLogIntegrity (entries : List SignedLogEntry) (publicKeyPem : String)
    (verifySignatureFn : String → String → String → Bool) :
    Bool × List String :=
  match entries with
  | [] => (true, [])
  | _ =>
    let sorted := List.insertionSort (fun a b => a.sequence ≤ b.sequence) entries
    let startErrors :=
      match sorted.head? with
      | some e0 =>
          if e0.sequence ≠ 1 then
            ["Sequence should start at 1, but starts at " ++ toString e0.sequence]
          else []
      | none => []
    let loopErrors := sorted.enum.flatMap (fun p =>
      let expectedSequence := p.1 + 1
      let entry := p.2
      let gapErr :=
        if entry.sequence ≠ expectedSequence then
          ["Sequence gap detected: expected " ++ toString expectedSequence
            ++ ", got " ++ toString entry.sequence]
        else []
      let dataToVerify := stringifyCompact (.jobj (.ofList (removeKey "signature" (signedPairs entry))))
      let sigErr :=
        if verifySignatureFn dataToVerify entry.signature publicKeyPem then []
        else ["Invalid signature for sequence " ++ toString entry.sequence]
      gapErr ++ sigErr)
    let errors := startErrors ++ loopErrors
    (errors.isEmpty, errors)

/-!
Concrete demonstration instances for the library parameters, used by the
witness theorems: a toy RSA key pair (n = 3 * 11 = 33, e = 3, d = 7, a
valid pair since 3 * 7 = 21 = 1 mod 20 = phi(33)), a digest model, a
unary base64 model whose decoder is its encoder's inverse, and a PEM
parser recognising one demo key. -/

def padHashDemo (s : String) : Nat :=
  s.data.foldl (fun a c => (a * 131 + c.toNat) % 251) 7

def enc64Demo (x : Nat) : String := String.mk (List.replicate x 'a')

def dec64Demo (s : String) : Option Nat := some s.data.length

def parsePemDemo (s : String) : Option RSAPublicKey :=
  if s = "-----DEMO KEY-----" then some ⟨33, 3⟩ else none

def skDemo : RSAPrivateKey := ⟨33, 7⟩

def pkDemo : RSAPublicKey := ⟨33, 3⟩

/-- Demo egress entry used by witness theorems. -/
def eDemo : EgressLogEntry :=
  ⟨"egress", 1, "fn", "inv", "2024-01-01T00:00:00.000Z",
   "GET", "api.example.com", 443, "/v1", "https"⟩

/-!
Claim C1: concurrent sequencing.
-/

theorem logRequestStep_getAll (signer : String → String)
    (functionId invocationId : String) (st : InMemoryLogStore)
    (r : ProxyRequestInfo) (ts : String) :
    ((logRequestStep signer functionId invocationId st r ts).1).getAll functionId
      = st.getAll functionId
        ++ [(logRequestStep signer functionId invocationId st r ts).2] := by
  simp [logRequestStep, InMemoryLogStore.append, InMemoryLogStore.getAll]

theorem logRequestStep_sequence (signer : String → String)
    (functionId invocationId : String) (st : InMemoryLogStore)
    (r : ProxyRequestInfo) (ts : String) :
    ((logRequestStep signer functionId invocationId st r ts).2).sequence
      = st.getLatestSequence functionId + 1 := by
  simp [logRequestStep]

theorem logRequestStep_latest (signer : String → String)
    (functionId invocationId : String) (st : InMemoryLogStore)
    (r : ProxyRequestInfo) (ts : String) :
    ((logRequestStep signer functionId invocationId st r ts).1).getLatestSequence functionId
      = st.getLatestSequence functionId + 1 := by
  simp [logRequestStep, InMemoryLogStore.append, InMemoryLogStore.getLatestSequence]

/-- C1. A batch of N concurrent forward requests against one proxy (hence
one functionId), serialized by the sequenceLock promise chain in whatever
order they joined it, appends exactly N entries whose sequence numbers are
exactly last+1, ..., last+N (a contiguous, duplicate-free range), and
leaves the cached latest sequence at last+N. The batch order `rs` is an
arbitrary list, so this holds for every interleaving of the concurrent
callers. -/
theorem concurrent_batch_contiguous (signer : String → String)
    (functionId invocationId : String) (st : InMemoryLogStore)
    (rs : List (ProxyRequestInfo × String)) :
    ((processBatch signer functionId invocationId st rs).getAll functionId).map
        (fun e => e.sequence)
      = (st.getAll functionId).map (fun e => e.sequence)
        ++ List.range' (st.getLatestSequence functionId + 1) rs.length
    ∧ (processBatch signer functionId invocationId st rs).getLatestSequence functionId
        = st.getLatestSequence functionId + rs.length
    ∧ (List.range' (st.getLatestSequence functionId + 1) rs.length).Nodup := by
  induction rs generalizing st with
  | nil =>
      refine ⟨by simp [processBatch], by simp [processBatch], by simp⟩
  | cons rt t ih =>
      have hfold :
          processBatch signer functionId invocationId st (rt :: t)
            = processBatch signer functionId invocationId
                ((logRequestStep signer functionId invocationId st rt.1 rt.2).1) t := by
        simp [processBatch]
      obtain ⟨ih1, ih2, _⟩ :=
        ih ((logRequestStep signer functionId invocationId st rt.1 rt.2).1)
      refine ⟨?_, ?_, by exact List.nodup_range' _ _⟩
      · rw [hfold, ih1, logRequestStep_getAll, logRequestStep_latest]
        simp [List.range'_succ, logRequestStep_sequence]
      · rw [hfold, ih2, logRequestStep_latest]
        simp only [List.length_cons]
        omega

/-!
Claim C2: pre-forward logging and 502 on unreachable upstream.
-/

/-- C2. On the plain-HTTP forward path the egress entry is appended before
the upstream connection is attempted (the trace starts with the append,
then the connect, then the response), the proxied status is the upstream's
status, and an unreachable upstream (`upstream = none`) yields 502 Bad
Gateway while the already-appended entry remains in the store. -/
theorem log_before_forward (signer : String → String)
    (functionId invocationId : String) (upstream : Option Nat)
    (st : InMemoryLogStore) (r : ProxyRequestInfo) (ts : String) :
    (handleRequest signer functionId invocationId true upstream st r ts).events
      = [.appended (logRequestStep signer functionId invocationId st r ts).2,
         .connectUpstream r.host r.port,
         .responded (upstream.getD 502)]
    ∧ (handleRequest signer functionId invocationId true upstream st r ts).status
        = upstream.getD 502
    ∧ (logRequestStep signer functionId invocationId st r ts).2
        ∈ (handleRequest signer functionId invocationId true upstream st r ts).store.getAll
            functionId := by
  cases upstream <;>
    simp [handleRequest, logRequestStep_getAll]

/-!
Claim C3: behaviour on log-append failure. The spec's error table promises
502 to the sandboxed client, but a rejected append propagates out of
`await this.logRequest(...)` into handleRequest's try/catch, which answers
500 Internal Server Error (proxy-server.ts lines 87-91). The request is
indeed never forwarded.
-/

/-- C3 counterexample. At a concrete request with a failing append and a
healthy upstream, the client receives 500 (not the claimed 502); the trace
shows no upstream connection attempt and no appended entry. -/
theorem append_failure_answers_500 :
    (handleRequest (fun _ => "sig") "fn" "inv" false (some 200)
        InMemoryLogStore.empty ⟨"GET", "example.com", 80, "/", "http"⟩
        "2024-01-01T00:00:00.000Z").status = 500
    ∧ ¬ (handleRequest (fun _ => "sig") "fn" "inv" false (some 200)
        InMemoryLogStore.empty ⟨"GET", "example.com", 80, "/", "http"⟩
        "2024-01-01T00:00:00.000Z").status = 502
    ∧ (handleRequest (fun _ => "sig") "fn" "inv" false (some 200)
        InMemoryLogStore.empty ⟨"GET", "example.com", 80, "/", "http"⟩
        "2024-01-01T00:00:00.000Z").events = [.responded 500] := by
  refine ⟨rfl, by decide, rfl⟩

/-- C3 amended. If appending the egress log entry fails for an in-flight
proxied request, the proxy does not forward the request upstream (no
connect event; the store is untouched) and surfaces the failure to the
sandboxed client as 500 Internal Server Error — the generic catch-all —
rather than the 502 the spec's error table names. -/
theorem append_failure_aborts_forward (signer : String → String)
    (functionId invocationId : String) (upstream : Option Nat)
    (st : InMemoryLogStore) (r : ProxyRequestInfo) (ts : String) :
    (handleRequest signer functionId invocationId false upstream st r ts).status = 500
    ∧ (handleRequest signer functionId invocationId false upstream st r ts).events
        = [.responded 500]
    ∧ (handleRequest signer functionId invocationId false upstream st r ts).store = st := by
  refine ⟨?_, ?_, ?_⟩ <;> simp [handleRequest]

/-!
Claim C4: sign-then-verify round trip.
-/

/-- C4. For every log entry E, every RSA key pair (sk, pk) — same modulus,
exponents inverse on the residues below n — every digest model, every
base64 codec whose decoder inverts its encoder on residues, and every PEM
parser that resolves `pem` to pk: verifying the canonical serialization of
E (its JSON with the signature field absent) against
sign(sk, canon(E)) with pk returns true. -/
theorem sign_then_verify (parsePem : String → Option RSAPublicKey)
    (enc64 : Nat → String) (dec64 : String → Option Nat) (padHash : String → Nat)
    (sk : RSAPrivateKey) (pk : RSAPublicKey) (pem : String) (E : EgressLogEntry)
    (hn : 0 < pk.n) (hmod : sk.n = pk.n)
    (hkey : ∀ m, m < pk.n → (m ^ sk.d % pk.n) ^ pk.e % pk.n = m % pk.n)
    (hpem : parsePem pem = some pk)
    (hdec : ∀ x, x < pk.n → dec64 (enc64 x) = some x) :
    verifySignature parsePem dec64 padHash (canonEgress E)
      (TEESigner.sign padHash enc64 sk (canonEgress E)) pem = true := by
  have hlt : padHash (canonEgress E) ^ sk.d % sk.n < pk.n := by
    rw [hmod]
    exact Nat.mod_lt _ hn
  have harg : dec64 (TEESigner.sign padHash enc64 sk (canonEgress E))
      = some (padHash (canonEgress E) ^ sk.d % sk.n) := hdec _ hlt
  simp only [verifySignature, hpem, harg, decide_eq_true_eq]
  rw [hmod]
  nth_rewrite 2 [Nat.pow_mod]
  rw [hkey _ (Nat.mod_lt _ hn)]
  exact Nat.mod_mod_of_dvd _ dvd_rfl

/-- C4 witness: the round trip evaluated at the demo entry and the toy RSA
key pair. -/
theorem sign_then_verify_witness :
    verifySignature parsePemDemo dec64Demo padHashDemo (canonEgress eDemo)
      (TEESigner.sign padHashDemo enc64Demo skDemo (canonEgress eDemo))
      "-----DEMO KEY-----" = true :=
  sign_then_verify parsePemDemo enc64Demo dec64Demo padHashDemo skDemo pkDemo
    "-----DEMO KEY-----" eDemo (by decide) rfl (by decide) (by decide)
    (fun x _ => by simp [dec64Demo, enc64Demo])

/-!
Claim C5: the integrity verifier accumulates errors.
-/

/-- Demo signer closing over the toy key (models `config.signer.sign`). -/
def signerDemoFn (data : String) : String :=
  TEESigner.sign padHashDemo enc64Demo skDemo data

/-- A correctly signed demo entry with the given sequence and path. -/
def mkEntryDemo (seq : Nat) (path : String) : SignedLogEntry :=
  let e : EgressLogEntry :=
    ⟨"egress", seq, "fn", "inv", "2024-01-01T00:00:00.000Z",
     "GET", "api.example.com", 443, path, "https"⟩
  ⟨e, signerDemoFn (canonEgress e)⟩

/-- The verify callback handed to verifyLogIntegrity, as in the tests
(`verifySignature` instantiated with the demo codec parameters). -/
def verifyDemoFn (data sig key : String) : Bool :=
  verifySignature parsePemDemo dec64Demo padHashDemo data sig key

set_option maxRecDepth 4000 in
/-- C5. On three correctly signed entries with sequences 1, 2 and 4 the
verifier returns valid=false and accumulates exactly the sequence-gap
error: the gap is reported and there is no Invalid-signature error, i.e.
the signatures are still reported as individually valid and the check did
not short-circuit. -/
theorem verify_accumulates_gap_only :
    verifyLogIntegrity [mkEntryDemo 1 "/a", mkEntryDemo 2 "/b", mkEntryDemo 4 "/d"]
      "-----DEMO KEY-----" verifyDemoFn
      = (false, ["Sequence gap detected: expected 3, got 4"]) := by
  decide

/-!
Client bundle manifests, from `src/client-transparency/types.ts`,
`manifest.ts` and `signer.ts`. File-system walking, git probing and UUID
generation are I/O and are abstracted: `generateManifest` takes the
collected file entries, the captured build metadata and the fresh
manifestId as arguments; its assembly of the manifest and the bundle hash
computation are embedded concretely. SHA-256 (node:crypto) is a parameter
`sha256`.
-/

/-- ClientFileEntry (types.ts lines 13-22). -/
structure ClientFileEntry where
  path : String
  hash : String
  size : Nat
  mimeType : Option String
deriving DecidableEq

/-- BuildMetadata (types.ts lines 27-48); captureBuildMetadata always sets
buildTimestamp, nodeVersion, platform and buildEnvironment, the rest are
conditional. -/
structure BuildMetadata where
  buildTimestamp : String
  nodeVersion : String
  platform : String
  gitCommit : Option String
  gitBranch : Option String
  gitTag : Option String
  gitClean : Option Bool
  buildEnvironment : String
  pipelineUrl : Option String
  packageVersion : Option String
deriving DecidableEq

/-- SourceReference (types.ts lines 54-63). -/
structure SourceReference where
  repositoryUrl : String
  commitHash : String
  sourcePath : Option String
  buildCommand : Option String
deriving DecidableEq

/-- SDKVerification (types.ts lines 224-233). -/
structure SDKVerification where
  sdkId : String
  sdkVersion : String
  sdkHash : String
  sdkPath : String
deriving DecidableEq

/-- ClientManifest (types.ts lines 239-270). `apiSurface` and
`customMetadata` are arbitrary JSON loaded from a file or supplied by the
developer, so they are modelled as raw JSON values. -/
structure ClientManifest where
  version : String
  manifestId : String
  name : String
  clientType : String
  bundleHash : String
  files : List ClientFileEntry
  build : BuildMetadata
  allowedEgress : List String
  source : Option SourceReference
  apiSurface : Option JValue
  dshieldFunctions : Option (List String)
  customMetadata : Option JValue
  sdkVerification : Option SDKVerification

/-- SignedClientManifest (types.ts lines 275-286). -/
structure SignedClientManifest where
  manifest : ClientManifest
  signature : String
  signedAt : String
  publicKey : String
  keyFingerprint : String

/-- A member that is present only when the optional field is set (a JS
property that is absent, or present with value undefined and therefore
skipped by JSON.stringify). -/
def optMember (k : String) : Option JValue → List (String × JValue)
  | none => []
  | some j => [(k, j)]

/-- JSON members of a file entry, in the insertion order of the object
literal in collectFiles (manifest.ts lines 123-128). -/
def fileMembers (f : ClientFileEntry) : List (String × JValue) :=
  [("path", .jstr f.path), ("hash", .jstr f.hash), ("size", .jnum f.size)]
    ++ optMember "mimeType" (f.mimeType.map JValue.jstr)

/-- File entry as a JSON object. -/
def fileToJ (f : ClientFileEntry) : JValue :=
  .jobj (.ofList (fileMembers f))

/-- JSON members of build metadata, in the assignment order of
captureBuildMetadata (manifest.ts lines 153-208). -/
def buildMembers (b : BuildMetadata) : List (String × JValue) :=
  [("buildTimestamp", .jstr b.buildTimestamp),
   ("nodeVersion", .jstr b.nodeVersion),
   ("platform", .jstr b.platform)]
    ++ optMember "gitCommit" (b.gitCommit.map JValue.jstr)
    ++ optMember "gitBranch" (b.gitBranch.map JValue.jstr)
    ++ optMember "gitTag" (b.gitTag.map JValue.jstr)
    ++ optMember "gitClean" (b.gitClean.map JValue.jbool)
    ++ [("buildEnvironment", .jstr b.buildEnvironment)]
    ++ optMember "pipelineUrl" (b.pipelineUrl.map JValue.jstr)
    ++ optMember "packageVersion" (b.packageVersion.map JValue.jstr)

/-- Build metadata as a JSON object. -/
def buildToJ (b : BuildMetadata) : JValue :=
  .jobj (.ofList (buildMembers b))

/-- JSON members of a source reference (types.ts lines 54-63). -/
def sourceToJ (s : SourceReference) : JValue :=
  .jobj (.ofList
    ([("repositoryUrl", .jstr s.repositoryUrl), ("commitHash", .jstr s.commitHash)]
      ++ optMember "sourcePath" (s.sourcePath.map JValue.jstr)
      ++ optMember "buildCommand" (s.buildCommand.map JValue.jstr)))

/-- JSON members of an SDK verification record (manifest.ts lines 315-321). -/
def sdkToJ (v : SDKVerification) : JValue :=
  .jobj (.ofList
    [("sdkId", .jstr v.sdkId), ("sdkVersion", .jstr v.sdkVersion),
     ("sdkHash", .jstr v.sdkHash), ("sdkPath", .jstr v.sdkPath)])

/-- JSON members of a manifest, in the insertion order of generateManifest
(manifest.ts lines 248-288: the object literal, then the conditional
assignments of source, apiSurface, dshieldFunctions, customMetadata,
sdkVerification). -/
def manifestMembers (m : ClientManifest) : List (String × JValue) :=
  [("version", .jstr m.version), ("manifestId", .jstr m.manifestId),
   ("name", .jstr m.name), ("clientType", .jstr m.clientType),
   ("bundleHash", .jstr m.bundleHash),
   ("files", .jarr (.ofList (m.files.map fileToJ))),
   ("build", buildToJ m.build),
   ("allowedEgress", .jarr (.ofList (m.allowedEgress.map JValue.jstr)))]
  ++ optMember "source" (m.source.map sourceToJ)
  ++ optMember "apiSurface" m.apiSurface
  ++ optMember "dshieldFunctions"
      (m.dshieldFunctions.map (fun l => .jarr (.ofList (l.map JValue.jstr))))
  ++ optMember "customMetadata" m.customMetadata
  ++ optMember "sdkVerification" (m.sdkVerification.map sdkToJ)

/-- Object.keys(manifest): the manifest's own keys in insertion order. -/
def manifestKeys (m : ClientManifest) : List String :=
  (manifestMembers m).map Prod.fst

/-- The PropertyList JSON.stringify builds from the replacer array
`Object.keys(manifest).sort()`: the keys sorted (JavaScript default string
sort, modelled by the lexicographic order on String), deduplicated keeping
first occurrences. -/
def manifestSortedKeys (m : ClientManifest) : List String :=
  keepFirstAux [] (List.insertionSort strLe (manifestKeys m))

/-- serializeManifest (manifest.ts lines 336-338):
JSON.stringify(manifest, Object.keys(manifest).sort(), 2). -/
def serializeManifest (m : ClientManifest) : String :=
  serVal (some (manifestSortedKeys m)) "  " "" (.jobj (.ofList (manifestMembers m)))

/-- Comparison of file entries by path, modelling the localeCompare-based
comparator in computeBundleHash. -/
def fileLe (a b : ClientFileEntry) : Prop := strLe a.path b.path

instance : DecidableRel fileLe :=
  fun a b => instDecidableEqBool (charListLe a.path.data b.path.data) true

/-- computeBundleHash (manifest.ts lines 215-219): sort the files by path
(localeCompare, modelled by the lexicographic order on String), join the
`path:hash` lines with newlines, hash. -/
def computeBundleHash (sha256 : String → String)
    (files : List ClientFileEntry) : String :=
  let sortedFiles := List.insertionSort fileLe files
  let concatenated := String.intercalate "\n"
    (sortedFiles.map (fun f => f.path ++ ":" ++ f.hash))
  sha256 concatenated

/-- generateManifest (manifest.ts lines 224-291), with the I/O parts
abstracted: `files` is the result of collectFiles, `build` the captured
metadata, `manifestId` the fresh UUID; the bundle hash is computed from the
collected files and the manifest assembled field by field as in the
source. -/
def generateManifest (sha256 : String → String) (manifestId : String)
    (name clientType : String) (files : List ClientFileEntry)
    (build : BuildMetadata) (allowedEgress : List String)
    (source : Option SourceReference) (apiSurface : Option JValue)
    (dshieldFunctions : Option (List String)) (customMetadata : Option JValue)
    (sdkVerification : Option SDKVerification) : ClientManifest :=
  ⟨"1.0", manifestId, name, clientType, computeBundleHash sha256 files,
   files, build, allowedEgress, source, apiSurface, dshieldFunctions,
   customMetadata, sdkVerification⟩

/-- computeKeyFingerprint (client-transparency/signer.ts lines 21-23):
SHA-256 of the PEM-encoded public key. -/
def computeKeyFingerprint (sha256 : String → String) (publicKeyPem : String) : String :=
  sha256 publicKeyPem

/-- signManifest (client-transparency/signer.ts lines 32-58): derive the
public key from the private key (`derivePk` models forge's setRsaPublicKey
plus publicKeyToPem), serialize the manifest canonically, sign with
SHA-256/RSA, and wrap with signature, timestamp, public key and
fingerprint. -/
def signManifest (padHash : String → Nat) (enc64 : Nat → String)
    (sha256 : String → String) (derivePk : RSAPrivateKey → String)
    (now : String) (manifest : ClientManifest) (sk : RSAPrivateKey) :
    SignedClientManifest :=
  let publicKeyPem := derivePk sk
  let manifestJson := serializeManifest manifest
  let signature := enc64 (padHash manifestJson ^ sk.d % sk.n)
  ⟨manifest, signature, now, publicKeyPem,
   computeKeyFingerprint sha256 publicKeyPem⟩

/-- verifyManifestSignature (client-transparency/signer.ts lines 67-88):
use the trusted key when provided, else the embedded key
(`trustedPublicKey || signedManifest.publicKey`); parse, re-serialize the
manifest, decode the signature, check; any thrown error is caught and
yields false. -/
def verifyManifestSignature (parsePem : String → Option RSAPublicKey)
    (dec64 : String → Option Nat) (padHash : String → Nat)
    (signedManifest : SignedClientManifest)
    (trustedPublicKey : Option String) : Bool :=
  let publicKeyPem :=
    match trustedPublicKey with
    | some k => k
    | none => signedManifest.publicKey
  match parsePem publicKeyPem with
  | none => false
  | some pk =>
      match dec64 signedManifest.signature with
      | none => false
      | some s =>
          decide (s ^ pk.e % pk.n
            = padHash (serializeManifest signedManifest.manifest) % pk.n)

/-- verifyBundleHash (client-transparency/signer.ts lines 93-96): recompute
the bundle hash from the manifest's files and compare with the stored
value. -/
def verifyBundleHash (sha256 : String → String) (manifest : ClientManifest) : Bool :=
  decide (computeBundleHash sha256 manifest.files = manifest.bundleHash)

/-!
Claim C6: what serializeManifest actually signs.

`JSON.stringify(manifest, Object.keys(manifest).sort(), 2)` passes the
sorted key array as a replacer; per ECMA-262 the resulting PropertyList
selects the keys of every object in the tree, so nested objects whose keys
are not manifest keys — the file entries and the build metadata — serialize
as empty objects.
-/

/-- Every key a manifest object can have (the eight always-present keys of
the generateManifest object literal followed by the five conditional
ones). -/
def allManifestKeys : List String :=
  ["version", "manifestId", "name", "clientType", "bundleHash", "files",
   "build", "allowedEgress", "source", "apiSurface", "dshieldFunctions",
   "customMetadata", "sdkVerification"]

theorem mem_optMember_fst (k s : String) (v : Option JValue)
    (h : k ∈ (optMember s v).map Prod.fst) : k = s := by
  cases v <;> simp [optMember] at h
  exact h

theorem keepFirstAux_sublist (l : List String) :
    ∀ seen, (keepFirstAux seen l).Sublist l := by
  induction l with
  | nil =>
      intro seen
      simp [keepFirstAux]
  | cons k t ih =>
      intro seen
      simp only [keepFirstAux]
      by_cases h : k ∈ seen
      · simp only [if_pos h]
        exact (ih seen).cons k
      · simp only [if_neg h]
        exact (ih (k :: seen)).cons₂ k

theorem manifestKeys_subset (m : ClientManifest) :
    manifestKeys m ⊆ allManifestKeys := by
  intro k hk
  simp only [manifestKeys, manifestMembers, List.map_append, List.mem_append] at hk
  rcases hk with ((((hk | hk) | hk) | hk) | hk) | hk
  · simp only [List.map_cons, List.map_nil, List.mem_cons,
      List.not_mem_nil, or_false] at hk
    rcases hk with rfl | rfl | rfl | rfl | rfl | rfl | rfl | rfl <;> decide
  · rw [mem_optMember_fst _ _ _ hk]; decide
  · rw [mem_optMember_fst _ _ _ hk]; decide
  · rw [mem_optMember_fst _ _ _ hk]; decide
  · rw [mem_optMember_fst _ _ _ hk]; decide
  · rw [mem_optMember_fst _ _ _ hk]; decide

theorem manifestSortedKeys_subset (m : ClientManifest) :
    manifestSortedKeys m ⊆ allManifestKeys := by
  intro k hk
  have h1 := (keepFirstAux_sublist _ []).subset hk
  have h2 := (List.perm_insertionSort strLe (manifestKeys m)).subset h1
  exact manifestKeys_subset m h2

theorem serMembers_ofList_fst (props : Option (List String)) (gap ind : String)
    (pairs : List (String × JValue)) :
    (serMembers props gap ind (.ofList pairs)).map Prod.fst
      = pairs.map Prod.fst := by
  induction pairs with
  | nil => rfl
  | cons p t ih =>
      rcases p with ⟨k, v⟩
      simp [JMembers.ofList, serMembers, ih]

theorem lookupSer_eq_none_of_not_mem (k : String) (l : List (String × String))
    (h : k ∉ l.map Prod.fst) : lookupSer k l = none := by
  induction l with
  | nil => rfl
  | cons p t ih =>
      rcases p with ⟨k₂, s⟩
      simp only [List.map_cons, List.mem_cons] at h
      push_neg at h
      simp only [lookupSer, if_neg h.1]
      exact ih h.2

/-- SerializeJSONObject with a PropertyList none of whose keys the object
has produces the empty object. -/
theorem serVal_obj_empty (props : List String) (gap ind : String) (ms : JMembers)
    (h : ∀ k ∈ props,
      lookupSer k (serMembers (some props) gap (ind ++ gap) ms) = none) :
    serVal (some props) gap ind (.jobj ms) = "\x7b\x7d" := by
  simp only [serVal]
  have hnil : props.filterMap (fun k =>
      (lookupSer k (serMembers (some props) gap (ind ++ gap) ms)).map (fun sv =>
        quoteJson k ++ ":" ++ (if gap.isEmpty then "" else " ") ++ sv)) = [] :=
    List.filterMap_eq_nil_iff.mpr (fun k hk => by rw [h k hk]; rfl)
  rw [hnil]
  simp [fmtObj]

theorem optMember_fst_subset (s : String) (v : Option JValue) (L : List String)
    (h : s ∈ L) : (optMember s v).map Prod.fst ⊆ L := by
  cases v <;> simp [optMember, h]

theorem fileMembers_fst_subset (f : ClientFileEntry) :
    (fileMembers f).map Prod.fst ⊆ ["path", "hash", "size", "mimeType"] := by
  simp only [fileMembers, List.map_append]
  refine List.append_subset.mpr ⟨?_, optMember_fst_subset _ _ _ (by decide)⟩
  simp only [List.map_cons, List.map_nil]
  decide

theorem buildMembers_fst_subset (b : BuildMetadata) :
    (buildMembers b).map Prod.fst
      ⊆ ["buildTimestamp", "nodeVersion", "platform", "gitCommit", "gitBranch",
         "gitTag", "gitClean", "buildEnvironment", "pipelineUrl",
         "packageVersion"] := by
  simp only [buildMembers, List.map_append]
  refine List.append_subset.mpr ⟨?_, optMember_fst_subset _ _ _ (by decide)⟩
  refine List.append_subset.mpr ⟨?_, optMember_fst_subset _ _ _ (by decide)⟩
  refine List.append_subset.mpr ⟨?_, ?_⟩
  · refine List.append_subset.mpr ⟨?_, optMember_fst_subset _ _ _ (by decide)⟩
    refine List.append_subset.mpr ⟨?_, optMember_fst_subset _ _ _ (by decide)⟩
    refine List.append_subset.mpr ⟨?_, optMember_fst_subset _ _ _ (by decide)⟩
    refine List.append_subset.mpr ⟨?_, optMember_fst_subset _ _ _ (by decide)⟩
    simp only [List.map_cons, List.map_nil]
    decide
  · simp only [List.map_cons, List.map_nil]
    decide

/-- C6 amended, part of the corrected statement: under the PropertyList that
serializeManifest passes to the serializer, every file entry and the build
metadata serialize as the empty object (their keys are not manifest keys),
at every indentation depth; and the PropertyList itself is sorted. -/
theorem serializeManifest_filters_nested (m : ClientManifest)
    (f : ClientFileEntry) (b : BuildMetadata) (ind : String) :
    serVal (some (manifestSortedKeys m)) "  " ind (fileToJ f) = "\x7b\x7d"
    ∧ serVal (some (manifestSortedKeys m)) "  " ind (buildToJ b) = "\x7b\x7d"
    ∧ List.Sorted strLe (manifestSortedKeys m) := by
  refine ⟨?_, ?_, ?_⟩
  · rw [fileToJ]
    apply serVal_obj_empty
    intro k hk
    apply lookupSer_eq_none_of_not_mem
    rw [serMembers_ofList_fst]
    intro hbad
    have h1 := manifestSortedKeys_subset m hk
    have h2 := fileMembers_fst_subset f hbad
    simp only [allManifestKeys] at h1
    fin_cases h1 <;> revert h2 <;> decide
  · rw [buildToJ]
    apply serVal_obj_empty
    intro k hk
    apply lookupSer_eq_none_of_not_mem
    rw [serMembers_ofList_fst]
    intro hbad
    have h1 := manifestSortedKeys_subset m hk
    have h2 := buildMembers_fst_subset b hbad
    simp only [allManifestKeys] at h1
    fin_cases h1 <;> revert h2 <;> decide
  · have hs : List.Sorted strLe (List.insertionSort strLe (manifestKeys m)) :=
      List.sorted_insertionSort _ _
    exact List.Pairwise.sublist (keepFirstAux_sublist _ []) hs

/-- Boolean substring occurrence test (used to state which bytes reach the
signer). -/
def strOccurs (pat s : String) : Bool :=
  s.data.tails.any (fun t => pat.data.isPrefixOf t)

/-- Demo build metadata. -/
def buildDemo : BuildMetadata :=
  ⟨"2024-01-01T00:00:00.000Z", "v20.0.0", "linux",
   none, none, none, none, "local", none, none⟩

/-- Demo manifest with one file entry. -/
def mcDemo : ClientManifest :=
  ⟨"1.0", "m-1", "demo-client", "web", "bh-0011",
   [⟨"a.js", "deadbeefcafe1234", 4, some "application/javascript"⟩],
   buildDemo, ["api.example.com"], none, none, none, none, none⟩

set_option maxRecDepth 10000 in
/-- C6 counterexample. The claim that every field of the manifest —
including the path, hash and size of each files entry — appears in the
serialized bytes fails on this concrete manifest: the full serialization is
shown (files and build collapse to empty objects), and neither the file's
path, nor its hash, nor any "path" key occurs in the signed bytes. -/
theorem serializeManifest_omits_file_fields :
    serializeManifest mcDemo
      = "\x7b\n  \"allowedEgress\": [\n    \"api.example.com\"\n  ],\n  \"build\": \x7b\x7d,\n  \"bundleHash\": \"bh-0011\",\n  \"clientType\": \"web\",\n  \"files\": [\n    \x7b\x7d\n  ],\n  \"manifestId\": \"m-1\",\n  \"name\": \"demo-client\",\n  \"version\": \"1.0\"\n\x7d"
    ∧ strOccurs "deadbeefcafe1234" (serializeManifest mcDemo) = false
    ∧ strOccurs "a.js" (serializeManifest mcDemo) = false
    ∧ strOccurs "\"path\"" (serializeManifest mcDemo) = false
    ∧ strOccurs "\"bundleHash\"" (serializeManifest mcDemo) = true := by
  refine ⟨by decide, by decide, by decide, by decide, by decide⟩

/-!
Claim C7: bundle hash recomputation and order independence.
-/

instance : IsTotal ClientFileEntry fileLe :=
  ⟨fun a b => strLe_total a.path b.path⟩

instance : IsTrans ClientFileEntry fileLe :=
  ⟨fun a b c h1 h2 => strLe_trans a.path b.path c.path h1 h2⟩

/-- Two sorted lists of file entries that are permutations of each other and
have pairwise-distinct paths are equal. -/
theorem sorted_perm_nodup_eq : ∀ (l₁ l₂ : List ClientFileEntry), l₁.Perm l₂ →
    List.Sorted fileLe l₁ → List.Sorted fileLe l₂ →
    (l₁.map (fun f => f.path)).Nodup → l₁ = l₂ := by
  intro l₁
  induction l₁ with
  | nil =>
      intro l₂ h _ _ _
      exact h.nil_eq
  | cons a t₁ ih =>
      intro l₂ h s₁ s₂ nd
      cases l₂ with
      | nil => simp [h.eq_nil] at h ⊢
      | cons b t₂ =>
          by_cases hab : a = b
          · subst hab
            have nd' : (t₁.map (fun f => f.path)).Nodup := by
              simp only [List.map_cons, List.nodup_cons] at nd
              exact nd.2
            rw [ih t₂ h.cons_inv ((List.sorted_cons.mp s₁).2)
              ((List.sorted_cons.mp s₂).2) nd']
          · exfalso
            have ha : a ∈ b :: t₂ := h.subset (List.mem_cons_self a t₁)
            have hb : b ∈ a :: t₁ := h.symm.subset (List.mem_cons_self b t₂)
            have ha' : a ∈ t₂ := by
              rcases List.mem_cons.mp ha with h0 | h0
              · exact absurd h0 hab
              · exact h0
            have hb' : b ∈ t₁ := by
              rcases List.mem_cons.mp hb with h0 | h0
              · exact absurd h0.symm hab
              · exact h0
            have h1 : strLe a.path b.path := (List.sorted_cons.mp s₁).1 b hb'
            have h2 : strLe b.path a.path := (List.sorted_cons.mp s₂).1 a ha'
            have hpath : a.path = b.path := strLe_antisymm _ _ h1 h2
            simp only [List.map_cons, List.nodup_cons] at nd
            refine nd.1 ?_
            rw [hpath]
            exact List.mem_map_of_mem (fun f => f.path) hb'

/-- C7. For a manifest produced by generateManifest, recomputing the bundle
hash from manifest.files equals the stored bundleHash (verifyBundleHash
returns true); and computeBundleHash does not depend on the order in which
the files are listed (for the duplicate-free paths that a directory walk
produces). -/
theorem bundle_hash_roundtrip_and_order_independent
    (sha256 : String → String) (manifestId nm ct : String)
    (files files' : List ClientFileEntry) (build : BuildMetadata)
    (allowedEgress : List String) (source : Option SourceReference)
    (apiSurface : Option JValue) (dshieldFunctions : Option (List String))
    (customMetadata : Option JValue) (sdkVerification : Option SDKVerification)
    (hperm : files.Perm files')
    (hnd : (files.map (fun f => f.path)).Nodup) :
    verifyBundleHash sha256
        (generateManifest sha256 manifestId nm ct files build allowedEgress
          source apiSurface dshieldFunctions customMetadata sdkVerification)
        = true
    ∧ computeBundleHash sha256 files = computeBundleHash sha256 files' := by
  constructor
  · simp [verifyBundleHash, generateManifest]
  · have hnds : ((List.insertionSort fileLe files).map (fun f => f.path)).Nodup := by
      have hp := (List.perm_insertionSort fileLe files).map (fun f => f.path)
      exact hp.nodup_iff.mpr hnd
    have hsorteq : List.insertionSort fileLe files
        = List.insertionSort fileLe files' := by
      apply sorted_perm_nodup_eq
      · exact (List.perm_insertionSort _ _).trans
          (hperm.trans (List.perm_insertionSort _ _).symm)
      · exact List.sorted_insertionSort _ _
      · exact List.sorted_insertionSort _ _
      · exact hnds
    simp only [computeBundleHash]
    rw [hsorteq]

/-- Concrete stand-in for node:crypto SHA-256 in witnesses. -/
def sha256Demo (s : String) : String := "sha256:" ++ s

/-- C7 witness: a two-file manifest, with the files listed in both orders. -/
theorem bundle_hash_witness :
    verifyBundleHash sha256Demo
        (generateManifest sha256Demo "m-2" "demo" "web"
          [⟨"a.js", "h1", 10, none⟩, ⟨"b.css", "h2", 20, none⟩]
          buildDemo ["api.example.com"] none none none none none) = true
    ∧ computeBundleHash sha256Demo
        [⟨"a.js", "h1", 10, none⟩, ⟨"b.css", "h2", 20, none⟩]
      = computeBundleHash sha256Demo
        [⟨"b.css", "h2", 20, none⟩, ⟨"a.js", "h1", 10, none⟩] :=
  bundle_hash_roundtrip_and_order_independent sha256Demo "m-2" "demo" "web"
    [⟨"a.js", "h1", 10, none⟩, ⟨"b.css", "h2", 20, none⟩]
    [⟨"b.css", "h2", 20, none⟩, ⟨"a.js", "h1", 10, none⟩]
    buildDemo ["api.example.com"] none none none none none
    (List.Perm.swap _ _ _) (by decide)

/-!
Claim C8: verification is total and maps every failure to false.
-/

/-- C8. Both verifiers are total Bool-valued functions (the embedding turns
every exception the source catches into an Option failure), and every
failure mode yields false: a PEM parse failure, a base64/length failure on
the signature, and a failed RSA verification equation (wrong key or wrong
data), for verifySignature; likewise for verifyManifestSignature with the
trusted key when provided, else the embedded key. -/
theorem verification_total_false_on_failure
    (parsePem : String → Option RSAPublicKey) (dec64 : String → Option Nat)
    (padHash : String → Nat) :
    (∀ data sig pem, parsePem pem = none →
      verifySignature parsePem dec64 padHash data sig pem = false)
    ∧ (∀ data sig pem, dec64 sig = none →
      verifySignature parsePem dec64 padHash data sig pem = false)
    ∧ (∀ data sig pem pk s, parsePem pem = some pk → dec64 sig = some s →
      s ^ pk.e % pk.n ≠ padHash data % pk.n →
      verifySignature parsePem dec64 padHash data sig pem = false)
    ∧ (∀ sm tk, parsePem (Option.getD tk sm.publicKey) = none →
      verifyManifestSignature parsePem dec64 padHash sm tk = false)
    ∧ (∀ sm tk, dec64 sm.signature = none →
      verifyManifestSignature parsePem dec64 padHash sm tk = false) := by
  refine ⟨?_, ?_, ?_, ?_, ?_⟩
  · intro data sig pem h
    simp [verifySignature, h]
  · intro data sig pem h
    cases hp : parsePem pem <;> simp [verifySignature, h, hp]
  · intro data sig pem pk s hp hs hne
    simp [verifySignature, hp, hs, hne]
  · intro sm tk h
    cases tk <;> simp_all [verifyManifestSignature, Option.getD]
  · intro sm tk h
    cases tk <;>
      · simp only [verifyManifestSignature, Option.getD, h]
        cases hp : parsePem _ <;> simp

/-- Demo signed manifest wrapper for the C8 witness. -/
def smDemo : SignedClientManifest :=
  ⟨mcDemo, "sig-not-base64", "2024-01-01T00:00:00.000Z",
   "-----NOT A KEY-----", "fp-demo"⟩

/-- C8 witness: the failure branches evaluated at concrete inputs — an
unknown PEM key, a failing base64 decoder, a mismatched verification
equation, and a manifest whose embedded key does not parse. -/
theorem verification_total_false_on_failure_witness :
    verifySignature parsePemDemo dec64Demo padHashDemo "data" "sig"
        "unknown-key" = false
    ∧ verifySignature parsePemDemo (fun _ => none) padHashDemo "data" "sig"
        "-----DEMO KEY-----" = false
    ∧ verifySignature parsePemDemo dec64Demo padHashDemo "data" (enc64Demo 5)
        "-----DEMO KEY-----" = false
    ∧ verifyManifestSignature parsePemDemo dec64Demo padHashDemo smDemo
        none = false :=
  ⟨(verification_total_false_on_failure parsePemDemo dec64Demo padHashDemo).1
      "data" "sig" "unknown-key" (by decide),
   (verification_total_false_on_failure parsePemDemo (fun _ => none)
      padHashDemo).2.1 "data" "sig" "-----DEMO KEY-----" rfl,
   (verification_total_false_on_failure parsePemDemo dec64Demo padHashDemo).2.2.1
      "data" (enc64Demo 5) "-----DEMO KEY-----" pkDemo 5 (by decide) (by decide)
      (by decide),
   (verification_total_false_on_failure parsePemDemo dec64Demo padHashDemo).2.2.2.1
      smDemo none (by decide)⟩

/-!
Manifest registry, from `src/client-transparency/registry.ts`. The four
JavaScript Maps are modelled as functions into Option; signature checking
(registry.ts line 33 imports verifyManifestSignature) is a parameter
`verifySig`, so the theorems hold for every signature scheme; `now` models
`new Date().toISOString()`.
-/

/-- ManifestRegistryEntry (types.ts). -/
structure ManifestRegistryEntry where
  manifestId : String
  name : String
  bundleHash : String
  registeredAt : String
  keyFingerprint : String
  manifestUrl : String
  isLatest : Bool
  previousManifestId : Option String

/-- RegisterManifestRequest (types.ts): `setLatest` defaults to true at the
destructuring in register. -/
structure RegisterManifestRequest where
  signedManifest : SignedClientManifest
  setLatest : Bool

/-- RegisterManifestResponse (types.ts). -/
structure RegisterManifestResponse where
  success : Bool
  error : Option String
  entry : Option ManifestRegistryEntry

/-- The registry's four maps (registry.ts lines 21-24). -/
structure ManifestRegistryState where
  manifests : String → Option SignedClientManifest
  latestByName : String → Option String
  byBundleHash : String → Option String
  chainLinks : String → Option String

/-- Map.set / Map.delete on the function model. -/
def mapSet {β : Type} (m : String → Option β) (k : String) (v : Option β) :
    String → Option β :=
  fun x => if x = k then v else m x

def ManifestRegistryState.empty : ManifestRegistryState :=
  ⟨fun _ => none, fun _ => none, fun _ => none, fun _ => none⟩

/-- ManifestRegistry.register (registry.ts lines 29-81): verify the
signature, reject an already-registered id, store the manifest, index the
bundle hash, link the chain to the current latest of the name, and set the
latest when requested. -/
def ManifestRegistry.register (verifySig : SignedClientManifest → Bool)
    (now : String) (st : ManifestRegistryState)
    (request : RegisterManifestRequest) :
    ManifestRegistryState × RegisterManifestResponse :=
  let signedManifest := request.signedManifest
  let setLatest := request.setLatest
  if ¬ verifySig signedManifest then
    (st, ⟨false, some "Invalid manifest signature", none⟩)
  else
    let manifestId := signedManifest.manifest.manifestId
    let bundleHash := signedManifest.manifest.bundleHash
    let name := signedManifest.manifest.name
    if (st.manifests manifestId).isSome then
      (st, ⟨false, some ("Manifest " ++ manifestId ++ " already registered"),
        none⟩)
    else
      let previousManifestId := st.latestByName name
      let chainLinks' :=
        match previousManifestId with
        | some p => mapSet st.chainLinks manifestId (some p)
        | none => st.chainLinks
      let latestByName' :=
        if setLatest then mapSet st.latestByName name (some manifestId)
        else st.latestByName
      let st' : ManifestRegistryState :=
        ⟨mapSet st.manifests manifestId (some signedManifest),
         latestByName',
         mapSet st.byBundleHash bundleHash (some manifestId),
         chainLinks'⟩
      (st', ⟨true, none,
        some ⟨manifestId, name, bundleHash, now, signedManifest.keyFingerprint,
          "/api/manifests/" ++ manifestId, setLatest, previousManifestId⟩⟩)

/-- ManifestRegistry.delete (registry.ts lines 185-211): remove the
manifest and its bundle-hash index; when it was the latest of its name,
fall back to its chain predecessor; remove its outgoing chain link (but not
links of other manifests that point to it). -/
def ManifestRegistry.delete (st : ManifestRegistryState) (manifestId : String) :
    ManifestRegistryState × Bool :=
  match st.manifests manifestId with
  | none => (st, false)
  | some manifest =>
      let bundleHash := manifest.manifest.bundleHash
      let name := manifest.manifest.name
      let manifests' := mapSet st.manifests manifestId none
      let byBundleHash' := mapSet st.byBundleHash bundleHash none
      let latestByName' :=
        if st.latestByName name = some manifestId then
          match st.chainLinks manifestId with
          | some previousId => mapSet st.latestByName name (some previousId)
          | none => mapSet st.latestByName name none
        else st.latestByName
      let chainLinks' := mapSet st.chainLinks manifestId none
      (⟨manifests', latestByName', byBundleHash', chainLinks'⟩, true)

/-- ManifestRegistry.getByBundleHash (registry.ts lines 93-96). -/
def ManifestRegistry.getByBundleHash (st : ManifestRegistryState)
    (bundleHash : String) : Option SignedClientManifest :=
  match st.byBundleHash bundleHash with
  | some manifestId => st.manifests manifestId
  | none => none

/-- Fuel-indexed unrolling of the while loop in
ManifestRegistry.getManifestChain (registry.ts lines 134-147): push the
manifest when the current id resolves, then follow chainLinks; `none` means
the loop did not finish within `fuel` iterations — the source loop
terminates on an id exactly when some fuel yields `some`. -/
def ManifestRegistry.getManifestChainFuel (st : ManifestRegistryState) :
    Nat → Option String → Option (List SignedClientManifest)
  | _, none => some []
  | 0, some _ => none
  | fuel + 1, some currentId =>
      match ManifestRegistry.getManifestChainFuel st fuel
          (st.chainLinks currentId) with
      | none => none
      | some rest =>
          some ((match st.manifests currentId with
                 | some m => [m]
                 | none => []) ++ rest)

/-- Result shape of ManifestRegistry.verifyBundleHash. -/
structure BundleHashVerdict where
  trusted : Bool
  manifest : Option SignedClientManifest
  reason : Option String

/-- ManifestRegistry.verifyBundleHash (registry.ts lines 152-180): look the
hash up; reject an unregistered hash; check the key fingerprint against the
trusted list only when the list is present AND non-empty
(`if (trustedFingerprints && trustedFingerprints.length > 0)`). -/
def ManifestRegistry.verifyBundleHash (st : ManifestRegistryState)
    (bundleHash : String) (trustedFingerprints : Option (List String)) :
    BundleHashVerdict :=
  match ManifestRegistry.getByBundleHash st bundleHash with
  | none => ⟨false, none, some "Bundle hash not registered"⟩
  | some manifest =>
      match trustedFingerprints with
      | some fps =>
          if 0 < fps.length then
            if manifest.keyFingerprint ∈ fps then ⟨true, some manifest, none⟩
            else ⟨false, some manifest, some "Manifest signed by untrusted key"⟩
          else ⟨true, some manifest, none⟩
      | none => ⟨true, some manifest, none⟩

/-!
Claim C9: termination of getManifestChain over reachable registry states.

The sequence register A, register B (same name), delete A, register A again
is accepted by the registry (delete removed A from `manifests`, so the
re-registration passes the already-registered check) and leaves
chainLinks A = B and chainLinks B = A: delete only removes the deleted id's
own outgoing link, so B's link to A survives A's deletion, and the latest
of the name is still B when A is re-registered. On that reachable state the
while loop of getManifestChain never terminates.
-/

/-- Signature check of correctly signed manifests (with a real key pair,
such manifests exist for every manifest body by the C4 round trip). -/
def verifyTrue : SignedClientManifest → Bool := fun _ => true

/-- A signed manifest body with the given id, name, bundle hash and
fingerprint. -/
def mkSM (id nm bh fp : String) : SignedClientManifest :=
  ⟨⟨"1.0", id, nm, "web", bh, [], buildDemo, [], none, none, none, none, none⟩,
   "sig", "t0", "pk", fp⟩

/-- The state reached by: register A; register B (same name); delete A;
register A again. -/
def cycleState : ManifestRegistryState :=
  let st1 := (ManifestRegistry.register verifyTrue "t1"
    ManifestRegistryState.empty ⟨mkSM "A" "app" "h1" "fp1", true⟩).1
  let st2 := (ManifestRegistry.register verifyTrue "t2" st1
    ⟨mkSM "B" "app" "h2" "fp1", true⟩).1
  let st3 := (ManifestRegistry.delete st2 "A").1
  (ManifestRegistry.register verifyTrue "t4" st3
    ⟨mkSM "A" "app" "h3" "fp1", true⟩).1

/-- C9 is refuted by the code: after the four accepted operations above the
chain relation has the two-cycle A -> B -> A, and the chain walk started at
A finishes for no amount of fuel — getManifestChain("A") loops forever. -/
theorem getManifestChain_cycle_diverges :
    cycleState.chainLinks "A" = some "B"
    ∧ cycleState.chainLinks "B" = some "A"
    ∧ ∀ fuel,
        ManifestRegistry.getManifestChainFuel cycleState fuel (some "A")
          = none := by
  have hA : cycleState.chainLinks "A" = some "B" := by decide
  have hB : cycleState.chainLinks "B" = some "A" := by decide
  refine ⟨hA, hB, ?_⟩
  have key : ∀ fuel,
      ManifestRegistry.getManifestChainFuel cycleState fuel (some "A") = none
      ∧ ManifestRegistry.getManifestChainFuel cycleState fuel (some "B")
          = none := by
    intro fuel
    induction fuel with
    | zero => exact ⟨rfl, rfl⟩
    | succ n ih =>
        refine ⟨?_, ?_⟩
        · simp only [ManifestRegistry.getManifestChainFuel, hA, ih.2]
        · simp only [ManifestRegistry.getManifestChainFuel, hB, ih.1]
  exact fun fuel => (key fuel).1

/-!
Claim C10: the empty trusted-fingerprint list trusts everything.
-/

/-- C10. For every registered bundle hash, verifyBundleHash with an empty
trustedFingerprints array returns trusted=true (the guard requires the list
to be non-empty before checking membership), although the manifest's
fingerprint is not a member of the empty list; only a non-empty list
without the fingerprint rejects, with reason 'Manifest signed by untrusted
key'. -/
theorem verifyBundleHash_empty_list_trusts (st : ManifestRegistryState)
    (bundleHash : String) (m : SignedClientManifest)
    (h : ManifestRegistry.getByBundleHash st bundleHash = some m) :
    ManifestRegistry.verifyBundleHash st bundleHash (some [])
        = ⟨true, some m, none⟩
    ∧ m.keyFingerprint ∉ ([] : List String)
    ∧ ∀ fps : List String, fps ≠ [] → m.keyFingerprint ∉ fps →
        ManifestRegistry.verifyBundleHash st bundleHash (some fps)
          = ⟨false, some m, some "Manifest signed by untrusted key"⟩ := by
  refine ⟨?_, by simp, ?_⟩
  · simp [ManifestRegistry.verifyBundleHash, h]
  · intro fps hne hnm
    have hlen : 0 < fps.length := List.length_pos.mpr hne
    simp [ManifestRegistry.verifyBundleHash, h, hlen, hnm]

/-- Registry holding one manifest with bundle hash "hc" and fingerprint
"fp-c". -/
def stC : ManifestRegistryState :=
  (ManifestRegistry.register verifyTrue "t1" ManifestRegistryState.empty
    ⟨mkSM "C" "webapp" "hc" "fp-c", true⟩).1

/-- C10 witness: the registered hash is trusted against the empty list and
rejected against a non-empty list lacking its fingerprint. -/
theorem verifyBundleHash_empty_list_trusts_witness :
    ManifestRegistry.verifyBundleHash stC "hc" (some [])
        = ⟨true, some (mkSM "C" "webapp" "hc" "fp-c"), none⟩
    ∧ ManifestRegistry.verifyBundleHash stC "hc" (some ["fp-other"])
        = ⟨false, some (mkSM "C" "webapp" "hc" "fp-c"),
           some "Manifest signed by untrusted key"⟩ :=
  ⟨(verifyBundleHash_empty_list_trusts stC "hc" _ rfl).1,
   (verifyBundleHash_empty_list_trusts stC "hc" _ rfl).2.2 ["fp-other"]
     (by simp) (by decide)⟩
